import Mathlib

/-!
Shallow embedding of the qq-zone HTTP download module: the `Download`
function of the repository's http utility source file, together with
models of the Go standard-library string/path helpers it calls
(`filepath.Base`, `filepath.Ext`, `filepath.Dir`/`Clean`,
`strings.LastIndex`, `strings.Replace`, `mime.ExtensionsByType`).
Line numbers in comments refer to that Go source file.

The filesystem collaborator (`helper.IsFile`, `os.Stat`, `os.Remove`,
`os.OpenFile`, `io.Copy`) is modelled as an abstract store mapping a
path to the size of the regular file stored there, and the network
(`http.Get` probe, `client.Do` transfer) as a per-attempt oracle.
-/

namespace QQZone

/-! ### Models of Go standard library helpers -/

/-- Loop of the `filepath.Ext` model: walk the path characters from the
end; stop with nothing at a path separator, stop with the accumulated
suffix at a dot.  `seen` holds the characters already passed, in forward
order. -/
def goExtLoop : List Char → List Char → List Char
  | [], _ => []
  | c :: rest, seen =>
    if c = '/' then []
    else if c = '.' then c :: seen
    else goExtLoop rest (c :: seen)

/-- Model of Go `filepath.Ext`: the suffix beginning at the final dot in
the final path element, empty if there is none. -/
def goExt (p : String) : String := String.mk (goExtLoop p.data.reverse [])

/-- Model of Go `filepath.Base`: the last element of the path after
trailing separators are removed; `"."` for the empty path, `"/"` when the
path is all separators. -/
def goBase (p : String) : String :=
  if p = "" then "."
  else
    let stripped := p.data.reverse.dropWhile (fun c => c == '/')
    if stripped.isEmpty then "/"
    else String.mk ((stripped.takeWhile (fun c => c != '/')).reverse)

/-- Model of `strings.LastIndex(s, "/")` followed by the slice
`s[:lasti]`: the characters strictly before the last slash, or `none`
when the string has no slash.  For valid UTF-8 the byte index of a slash
is a character boundary, so the byte slice agrees with the character
slice. -/
def beforeLastSlash : List Char → Option (List Char)
  | [] => none
  | c :: rest =>
    match beforeLastSlash rest with
    | some r => some (c :: r)
    | none => if c = '/' then some [] else none

/-- Model of `strings.Replace(s, pat, "", 1)`: remove the first
occurrence of `pat` from `s` (the call site only uses a non-empty
pattern). -/
def removeFirstSub (pat : List Char) : List Char → List Char
  | [] => []
  | c :: rest =>
    if pat.isPrefixOf (c :: rest) then (c :: rest).drop pat.length
    else c :: removeFirstSub pat rest

/-- String wrapper for `removeFirstSub`. -/
def goReplaceOnce (s pat : String) : String :=
  String.mk (removeFirstSub pat.data s.data)

/-- Backtracking step of Go `filepath.Clean` on a `..` element: drop
output characters (the output buffer is kept reversed) until a separator
was dropped or the length reaches the `dotdot` floor. -/
def cleanBacktrack (dd : Nat) : List Char → List Char
  | [] => []
  | c :: rest =>
    if c = '/' ∨ rest.length ≤ dd then rest else cleanBacktrack dd rest

/-- Main loop of the Go `filepath.Clean` model.  The output buffer `out`
is kept reversed; `dd` is the floor below which `..` may not erase
output.  `fuel` bounds the iteration count (each step consumes at least
one input character, so an initial fuel of the input length suffices). -/
def cleanLoop (rooted : Bool) : Nat → List Char → List Char → Nat → List Char
  | 0, _, out, _ => out
  | _ + 1, [], out, _ => out
  | fuel + 1, c :: rest, out, dd =>
    if c == '/' then cleanLoop rooted fuel rest out dd
    else if c == '.' && (rest.isEmpty || rest.head? == some '/') then
      cleanLoop rooted fuel rest out dd
    else if c == '.' && rest.head? == some '.' &&
        (rest.tail.isEmpty || rest.tail.head? == some '/') then
      if dd < out.length then cleanLoop rooted fuel rest.tail (cleanBacktrack dd out) dd
      else if !rooted then
        let out2 := if 0 < out.length then '.' :: '.' :: '/' :: out else ['.', '.']
        cleanLoop rooted fuel rest.tail out2 out2.length
      else cleanLoop rooted fuel rest.tail out dd
    else
      let out2 := if (rooted && out.length != 1) || (!rooted && out.length != 0)
        then '/' :: out else out
      cleanLoop rooted fuel (rest.dropWhile (fun x => x != '/'))
        ((((c :: rest).takeWhile (fun x => x != '/')).reverse) ++ out2) dd

/-- Model of Go `filepath.Clean` on a Unix path. -/
def goClean (p : String) : String :=
  match p.data with
  | [] => "."
  | c :: rest =>
    let out :=
      if c == '/' then cleanLoop true rest.length rest ['/'] 1
      else cleanLoop false (c :: rest).length (c :: rest) [] 0
    if out.length = 0 then "." else String.mk out.reverse

/-- Characters of the path up to and including the last slash; empty
when there is no slash.  This is the slice that Go `filepath.Dir` cleans. -/
def upToLastSlash : List Char → List Char
  | [] => []
  | c :: rest =>
    let r := upToLastSlash rest
    if r.isEmpty then (if c = '/' then ['/'] else []) else c :: r

/-- Model of Go `filepath.Dir` on Unix: `Clean` of everything up to and
including the last separator (so `"."` when there is no separator). -/
def goDir (p : String) : String := goClean (String.mk (upToLastSlash p.data))

/-- Builtin extension table of the Go `mime` package (the inverse map
used by `ExtensionsByType`), extension lists sorted as
`sort.Strings` leaves them. -/
def builtinMimeTable : List (String × List String) :=
  [("application/json", [".json"]),
   ("application/pdf", [".pdf"]),
   ("application/wasm", [".wasm"]),
   ("image/avif", [".avif"]),
   ("image/gif", [".gif"]),
   ("image/jpeg", [".jpeg", ".jpg"]),
   ("image/png", [".png"]),
   ("image/svg+xml", [".svg"]),
   ("image/webp", [".webp"]),
   ("text/css", [".css"]),
   ("text/html", [".htm", ".html"]),
   ("text/javascript", [".js", ".mjs"]),
   ("text/xml", [".xml"])]

/-- ASCII lower-casing of one character (the content types at play are
ASCII; Go `ParseMediaType` lower-cases the media type). -/
def asciiToLower (c : Char) : Char :=
  if 'A' ≤ c ∧ c ≤ 'Z' then Char.ofNat (c.toNat + 32) else c

/-- Model of the part of `mime.ParseMediaType` that `ExtensionsByType`
uses: drop parameters after the first `;`, trim surrounding spaces,
lower-case, and require a non-empty `type/subtype` shape (`none` models
a parse error). -/
def parseMediaTypeJust (v : String) : Option String :=
  let base := v.data.takeWhile (fun c => c != ';')
  let trimmed := ((base.dropWhile (fun c => c == ' ')).reverse.dropWhile
    (fun c => c == ' ')).reverse
  let t := trimmed.map asciiToLower
  if t.contains '/' ∧ t ≠ [] then some (String.mk t) else none

/-- Model of Go `mime.ExtensionsByType` over the builtin table: `none`
models a parse error, `some []` an unknown type, otherwise the sorted
extension list. -/
def mimeExtensionsByType (contentType : String) : Option (List String) :=
  match parseMediaTypeJust contentType with
  | none => none
  | some t =>
    match builtinMimeTable.find? (fun p => p.1 == t) with
    | some p => some p.2
    | none => some []

/-! ### Data model of the download routine -/

/-- Response headers of the probe request (`http.Get(uri)`, lines
152-181 of the source): the `Content-Range`, `Accept-Ranges` and
`Content-Type` header values and `hresp.ContentLength` (negative one
when the length is unknown). -/
structure Header where
  contentRange : String
  acceptRanges : String
  contentType : String
  contentLength : Int
deriving DecidableEq

/-- Range-support flag of lines 162-167: true when `Content-Range` is
non-empty or `Accept-Ranges` equals `"bytes"`. -/
def rangesOf (h : Header) : Bool :=
  (h.contentRange != "") || (h.acceptRanges == "bytes")

/-- Result of the target-path resolution of lines 119-131 (the field
name `entension` keeps the source's spelling). -/
structure Resolved where
  filename : String
  entension : String
  targetDir : String
deriving DecidableEq

/-- Target-path resolution, lines 119-131: with a non-empty extension,
the filename is the base name with its first extension occurrence
removed and the directory is `filepath.Dir`; otherwise the directory is
the slice before the last slash, and `none` (the `Not the correct file
address` error) when no slash exists. -/
def resolveTarget (target : String) : Option Resolved :=
  let filename := goBase target
  let entension := goExt target
  if entension != "" then
    some ⟨goReplaceOnce filename entension, entension, goDir target⟩
  else
    match beforeLastSlash target.data with
    | none => none
    | some pre => some ⟨filename, "", String.mk pre⟩

/-- Extension inference, lines 169-177: when the probe declares a
content type and no extension was supplied, and the MIME lookup
succeeds with a non-empty list, append its first extension to the
filename and rebuild the target as `targetDir + "/" + filename`.
Returns the updated `(filename, entension, target)` triple. -/
def inferExtension (contentType entension filename targetDir target : String) :
    String × String × String :=
  if contentType != "" && entension == "" then
    match mimeExtensionsByType contentType with
    | some (e :: _) => (filename ++ e, e, targetDir ++ "/" ++ filename ++ e)
    | _ => (filename, entension, target)
  else (filename, entension, target)

/-- Oracle for the external effects of one attempt of `Download`:
`probe` is the outcome of `http.Get` (header values, or `none` on
error); `removeOk`, `newReqOk`, `doOk`, `openOk` tell whether
`os.Remove`, `http.NewRequest`, `client.Do` and `os.OpenFile` succeed;
`statusCode` is the transfer response status; `copyWritten` is the
number of body bytes `io.Copy` appends to the file and `copyOk`
whether the copy ends without error. -/
structure Attempt where
  probe : Option Header
  removeOk : Bool
  newReqOk : Bool
  doOk : Bool
  statusCode : Int
  openOk : Bool
  copyWritten : Nat
  copyOk : Bool

/-- Abstract filesystem: the size of the regular file at each path,
`none` when no file exists there. -/
abbrev Fs := String → Option Nat

/-- Point update of the abstract filesystem. -/
def fsSet (fs : Fs) (p : String) (v : Option Nat) : Fs :=
  fun q => if q = p then v else fs q

/-- Error kinds of `Download`, one per `return nil, ...` site:
`invalidTarget` line 128, `probeFail` line 157, `removeFail` line 195,
`newReqFail` line 214, `doFail` line 236, `httpStatus` line 245,
`openFail` line 254, `copyFail` lines 269/278, `sizeMismatch` line 289. -/
inductive DlError
  | invalidTarget
  | probeFail
  | removeFail
  | newReqFail
  | doFail
  | httpStatus (code : Int)
  | openFail
  | copyFail
  | sizeMismatch
deriving DecidableEq

/-- Which error sites sit inside an `if retry > 0` guard in the source.
The malformed-target return (line 128) and the size-mismatch return
(line 289) surface immediately; every other error site recurses when
budget remains. -/
def retriableErr : DlError → Bool
  | .invalidTarget => false
  | .sizeMismatch => false
  | _ => true

/-- Success value of `Download`: the `res` map with keys `filename`,
`dir`, `path` (lines 203-205 and 292-294). -/
structure DlResult where
  filename : String
  dir : String
  path : String
deriving DecidableEq

instance : DecidableEq (Except DlError DlResult) := fun a b =>
  match a, b with
  | .ok x, .ok y =>
    if h : x = y then isTrue (by rw [h]) else isFalse (fun hc => h (Except.ok.inj hc))
  | .error x, .error y =>
    if h : x = y then isTrue (by rw [h]) else isFalse (fun hc => h (Except.error.inj hc))
  | .ok _, .error _ => isFalse (fun hc => Except.noConfusion hc)
  | .error _, .ok _ => isFalse (fun hc => Except.noConfusion hc)

/-- Outcome of a single attempt: the filesystem after the attempt, the
value of the Go `target` variable at the exit point (the retry
recursion re-passes it), the transfer request issued by `client.Do`
(`none` when the attempt never reached `client.Do`; otherwise the
`Range` header value it carried, if any), and the result. -/
structure AttemptOut where
  fs : Fs
  target : String
  request : Option (Option String)
  result : Except DlError DlResult

/-- Range header of the transfer request, lines 219-222: when the
probe signalled range support the request carries
`Range: bytes=size-` (`fmt.Sprintf("bytes=%v-", size)`), otherwise no
`Range` header is set. -/
def rangeHeaderOf (ranges : Bool) (size : Nat) : Option String :=
  if ranges then some ("bytes=" ++ toString size ++ "-") else none

/-- Transfer execution of lines 224-296: send the request, check the
status is 2xx (line 241), open the file in append-or-create mode (line
249), copy the body (lines 259-281; bytes written before a copy error
stay on disk), re-stat the file (lines 283-286) and compare with the
probed content length (line 288; the mismatch return has no retry
guard in the source). -/
def transferPhase (a : Attempt) (ranges : Bool) (cl : Int) (size : Nat)
    (fs : Fs) (filename targetDir t1 : String) : AttemptOut :=
  if !a.newReqOk then ⟨fs, t1, none, .error .newReqFail⟩
  else if !a.doOk then ⟨fs, t1, some (rangeHeaderOf ranges size), .error .doFail⟩
  else if a.statusCode < 200 ∨ 300 ≤ a.statusCode then
    ⟨fs, t1, some (rangeHeaderOf ranges size), .error (.httpStatus a.statusCode)⟩
  else if !a.openOk then ⟨fs, t1, some (rangeHeaderOf ranges size), .error .openFail⟩
  else if !a.copyOk then
    ⟨fsSet fs t1 (some ((fs t1).getD 0 + a.copyWritten)), t1,
     some (rangeHeaderOf ranges size), .error .copyFail⟩
  else if cl ≠ (((fs t1).getD 0 + a.copyWritten : Nat) : Int) then
    ⟨fsSet fs t1 (some ((fs t1).getD 0 + a.copyWritten)), t1,
     some (rangeHeaderOf ranges size), .error .sizeMismatch⟩
  else
    ⟨fsSet fs t1 (some ((fs t1).getD 0 + a.copyWritten)), t1,
     some (rangeHeaderOf ranges size), .ok ⟨filename, targetDir, t1⟩⟩

/-- One pass over the body of `Download` (lines 118-296) without the
retry recursion: resolve the target (error when malformed), probe
(error when `http.Get` fails), infer the extension, then (lines
184-199) stat the existing file when ranges are supported or delete it
when they are not, return immediately when `size == contentLength`
(lines 202-207), otherwise run the transfer stage. -/
def attemptOnce (a : Attempt) (fs : Fs) (target : String) : AttemptOut :=
  match resolveTarget target with
  | none => ⟨fs, target, none, .error .invalidTarget⟩
  | some r0 =>
    match a.probe with
    | none => ⟨fs, target, none, .error .probeFail⟩
    | some h =>
      let ranges := rangesOf h
      let fi := inferExtension h.contentType r0.entension r0.filename r0.targetDir target
      let filename := fi.1
      let t1 := fi.2.2
      let cl := h.contentLength
      match fs t1, ranges with
      | some s, true =>
        if ((s : Nat) : Int) = cl then ⟨fs, t1, none, .ok ⟨filename, r0.targetDir, t1⟩⟩
        else transferPhase a ranges cl s fs filename r0.targetDir t1
      | some _, false =>
        if a.removeOk then
          let fs1 := fsSet fs t1 none
          if (0 : Int) = cl then ⟨fs1, t1, none, .ok ⟨filename, r0.targetDir, t1⟩⟩
          else transferPhase a ranges cl 0 fs1 filename r0.targetDir t1
        else ⟨fs, t1, none, .error .removeFail⟩
      | none, _ =>
        if (0 : Int) = cl then ⟨fs, t1, none, .ok ⟨filename, r0.targetDir, t1⟩⟩
        else transferPhase a ranges cl 0 fs filename r0.targetDir t1

/-- Outcome of a full `Download` call: final filesystem, the transfer
requests issued across all attempts (each entry the `Range` header of
one `client.Do` call, oldest first), the total number of attempts
(executions of the function body), and the result surfaced to the
caller. -/
structure RunOut where
  fs : Fs
  requests : List (Option String)
  attempts : Nat
  result : Except DlError DlResult

/-- Full `Download` with its retry recursion: run one attempt with the
oracle of attempt index `k`; on an error from a site guarded by
`if retry > 0` (see `retriableErr`), recurse with budget `retry - 1`
and the current `target` value, exactly as every recursion site calls
`Download(uri, target, retry-1, timeout, progressbar)`; otherwise
surface the outcome. -/
def download (w : Nat → Attempt) (uri : String) (k : Nat) (fs : Fs)
    (target : String) : Nat → RunOut
  | 0 =>
    let a := attemptOnce (w k) fs target
    ⟨a.fs, a.request.toList, 1, a.result⟩
  | retry + 1 =>
    let a := attemptOnce (w k) fs target
    match a.result with
    | .ok r => ⟨a.fs, a.request.toList, 1, .ok r⟩
    | .error e =>
      if retriableErr e then
        let o := download w uri (k + 1) a.fs a.target retry
        ⟨o.fs, a.request.toList ++ o.requests, o.attempts + 1, o.result⟩
      else ⟨a.fs, a.request.toList, 1, .error e⟩

/-! ### Concrete fixtures used by witnesses and counterexamples -/

/-- Empty filesystem fixture. -/
def fsNone : Fs := fun _ => none

/-- World in which the probe request fails on every attempt (a
permanently failing source). -/
def worldProbeFail : Nat → Attempt :=
  fun _ => ⟨none, true, true, true, 200, true, 0, true⟩

/-- World in which every external call succeeds and the declared
content length is zero. -/
def worldAllOk : Nat → Attempt :=
  fun _ => ⟨some ⟨"", "bytes", "", 0⟩, true, true, true, 200, true, 0, true⟩

/-- Filesystem holding a 5-byte file at `/t/f.txt`. -/
def fsFive : Fs := fun p => if p = "/t/f.txt" then some 5 else none

/-- World for the oversized-file scenario: range support, content
length 3 (smaller than the 5-byte local file), transfer delivers no
byte. -/
def worldOversized : Nat → Attempt :=
  fun _ => ⟨some ⟨"", "bytes", "", 3⟩, true, true, true, 200, true, 0, true⟩

/-- World for the size-mismatch scenario: no range support, content
length 10, the transfer delivers only 5 bytes and ends cleanly. -/
def worldShortBody : Nat → Attempt :=
  fun _ => ⟨some ⟨"", "", "", 10⟩, true, true, true, 200, true, 5, true⟩

/-- Filesystem holding a 2-byte partial file at `/t/f.txt`. -/
def fsTwo : Fs := fun p => if p = "/t/f.txt" then some 2 else none

/-- World for the resume scenario: range support, content length 7,
transfer delivers the missing 5 bytes. -/
def worldResume : Nat → Attempt :=
  fun _ => ⟨some ⟨"", "bytes", "", 7⟩, true, true, true, 200, true, 5, true⟩

/-- World for the no-range-support scenario: content length 9, no range
signals, deletion succeeds, transfer delivers 4 bytes. -/
def worldNoRanges : Nat → Attempt :=
  fun _ => ⟨some ⟨"", "", "", 9⟩, true, true, true, 200, true, 4, true⟩

/-- Filesystem holding a complete 7-byte file at `/t/f.txt`. -/
def fsSeven : Fs := fun p => if p = "/t/f.txt" then some 7 else none

/-- World for the already-complete scenario: range support, content
length 7, equal to the existing file size. -/
def worldComplete : Nat → Attempt :=
  fun _ => ⟨some ⟨"", "bytes", "", 7⟩, true, true, true, 200, true, 0, true⟩

/-- World for the extension-inference scenario: content type
`image/png`, content length 7, transfer delivers all 7 bytes. -/
def worldPng : Nat → Attempt :=
  fun _ => ⟨some ⟨"", "bytes", "image/png", 7⟩, true, true, true, 200, true, 7, true⟩

/-- World whose probe declares an unknown content length (negative
one) while everything else succeeds. -/
def worldNoLength : Nat → Attempt :=
  fun _ => ⟨some ⟨"", "bytes", "", -1⟩, true, true, true, 200, true, 9, true⟩

/-- World whose probe declares content length zero with range
support. -/
def worldZeroLength : Nat → Attempt :=
  fun _ => ⟨some ⟨"", "bytes", "", 0⟩, true, true, true, 200, true, 0, true⟩

/-! ### General lemmas about the retry recursion -/

/-- The attempt counter of a call with budget `retry` is at most
`retry + 1`. -/
lemma download_attempts_le (w : Nat → Attempt) (uri : String) :
    ∀ retry k fs target, (download w uri k fs target retry).attempts ≤ retry + 1 := by
  intro retry
  induction retry with
  | zero => intro k fs target; simp [download]
  | succ n ih =>
    intro k fs target
    simp only [download]
    rcases hres : (attemptOnce (w k) fs target).result with e | r
    · by_cases hr : retriableErr e = true
      · have h2 := ih (k + 1) (attemptOnce (w k) fs target).fs
          (attemptOnce (w k) fs target).target
        simp only [hr, if_true]
        exact Nat.succ_le_succ h2
      · simp [hr]
    · simp

/-- When the probe fails on every attempt and the target resolves, a
call with budget `retry` makes exactly `retry + 1` attempts and
surfaces the probe error. -/
lemma download_probe_fail_all (w : Nat → Attempt) (uri : String)
    (hw : ∀ j, (w j).probe = none) :
    ∀ retry k fs target r0, resolveTarget target = some r0 →
      (download w uri k fs target retry).attempts = retry + 1 ∧
      (download w uri k fs target retry).result = .error .probeFail := by
  intro retry
  induction retry with
  | zero =>
    intro k fs target r0 hres
    simp [download, attemptOnce, hres, hw k]
  | succ n ih =>
    intro k fs target r0 hres
    have ha : attemptOnce (w k) fs target = ⟨fs, target, none, .error .probeFail⟩ := by
      simp [attemptOnce, hres, hw k]
    have hrec := ih (k + 1) fs target r0 hres
    simp [download, ha, retriableErr, hrec.1, hrec.2]

/-- A successful attempt ends the recursion at once, whatever the
remaining budget. -/
lemma download_of_ok (w : Nat → Attempt) (uri : String) (k : Nat) (fs : Fs)
    (target : String) (retry : Nat) (r : DlResult)
    (ha : (attemptOnce (w k) fs target).result = .ok r) :
    download w uri k fs target retry =
      ⟨(attemptOnce (w k) fs target).fs,
       (attemptOnce (w k) fs target).request.toList, 1, .ok r⟩ := by
  cases retry with
  | zero => simp [download, ha]
  | succ n => simp [download, ha]

/-- Once `http.NewRequest` succeeds, the transfer stage issues exactly
one request, whose `Range` header is `bytes=size-` when ranges are
supported and absent otherwise. -/
lemma transferPhase_request (a : Attempt) (ranges : Bool) (cl : Int) (size : Nat)
    (fs : Fs) (fn dir t1 : String) (hreq : a.newReqOk = true) :
    (transferPhase a ranges cl size fs fn dir t1).request
      = some (rangeHeaderOf ranges size) := by
  unfold transferPhase
  split_ifs <;> simp_all

/-- The transfer stage either leaves the file untouched (when it fails
before the copy) or sets it to its prior size plus the bytes the copy
appended. -/
lemma transferPhase_fs (a : Attempt) (ranges : Bool) (cl : Int) (size : Nat)
    (fs : Fs) (fn dir t1 : String) :
    (transferPhase a ranges cl size fs fn dir t1).fs t1 = fs t1 ∨
    (transferPhase a ranges cl size fs fn dir t1).fs t1
      = some ((fs t1).getD 0 + a.copyWritten) := by
  unfold transferPhase
  split_ifs <;> simp [fsSet]

/-- A successful transfer returns the resolved result, leaves the file
at its prior size plus the appended bytes, and that size agrees with
the probed content length. -/
lemma transferPhase_ok_size (a : Attempt) (ranges : Bool) (cl : Int) (size : Nat)
    (fs : Fs) (fn dir t1 : String) (r : DlResult)
    (hok : (transferPhase a ranges cl size fs fn dir t1).result = .ok r) :
    r = ⟨fn, dir, t1⟩ ∧
    (transferPhase a ranges cl size fs fn dir t1).fs t1
      = some ((fs t1).getD 0 + a.copyWritten) ∧
    cl = (((fs t1).getD 0 + a.copyWritten : Nat) : Int) := by
  unfold transferPhase at hok ⊢
  split_ifs at hok ⊢ with h1 h2 h3 h4 h5 h6 <;> simp_all [fsSet]

/-- A successful transfer requires a non-negative probed content
length. -/
lemma transferPhase_ok_nonneg (a : Attempt) (ranges : Bool) (cl : Int) (size : Nat)
    (fs : Fs) (fn dir t1 : String) (r : DlResult)
    (hok : (transferPhase a ranges cl size fs fn dir t1).result = .ok r) :
    0 ≤ cl := by
  have h := (transferPhase_ok_size a ranges cl size fs fn dir t1 r hok).2.2
  omega

/-- C1: the total number of attempts of a `Download` call with retry
budget `retry` never exceeds `retry + 1` (the budget strictly
decreases across the recursive re-invocations), and when the source
fails permanently (here: the probe request fails on every attempt) and
the target is well formed, exactly `retry + 1` attempts are made and
the last error is surfaced to the caller. -/
theorem c1_retry_budget (w : Nat → Attempt) (uri : String) (k : Nat) (fs : Fs)
    (target : String) (retry : Nat) (r0 : Resolved) :
    (download w uri k fs target retry).attempts ≤ retry + 1 ∧
    ((∀ j, (w j).probe = none) → resolveTarget target = some r0 →
      (download w uri k fs target retry).attempts = retry + 1 ∧
      (download w uri k fs target retry).result = .error .probeFail) :=
  ⟨download_attempts_le w uri retry k fs target,
   fun hw hres => download_probe_fail_all w uri hw retry k fs target r0 hres⟩

/-- Witness for C1: against a world whose probe always fails, budget 2
yields exactly 3 attempts and surfaces the probe error. -/
theorem c1_retry_budget_witness :
    (download worldProbeFail "u" 0 fsNone "/a/b.txt" 2).attempts = 3 ∧
    (download worldProbeFail "u" 0 fsNone "/a/b.txt" 2).result = .error .probeFail :=
  (c1_retry_budget worldProbeFail "u" 0 fsNone "/a/b.txt" 2
    ⟨"b", ".txt", "/a"⟩).2 (fun _ => rfl) (by decide)

/-- With range support and an existing file whose size differs from
the content length, an attempt runs the transfer stage from that
size. -/
lemma attemptOnce_ranges_file (a : Attempt) (fs : Fs) (target : String)
    (r0 : Resolved) (h : Header) (fn ex t1 : String) (S : Nat)
    (hres : resolveTarget target = some r0)
    (hp : a.probe = some h)
    (hinf : inferExtension h.contentType r0.entension r0.filename r0.targetDir target
      = (fn, ex, t1))
    (hrg : rangesOf h = true)
    (hfs : fs t1 = some S)
    (hne : ((S : Nat) : Int) ≠ h.contentLength) :
    attemptOnce a fs target
      = transferPhase a true h.contentLength S fs fn r0.targetDir t1 := by
  simp [attemptOnce, hres, hp, hinf, hrg, hfs, hne]

/-- C2 counterexample: with a 5-byte local file, range support and
probed content length 3 (so `S > L`), the call does not delete the
file and does not restart from offset 0: it issues a range request
from offset 5 and the file is still present afterwards, the attempt
failing on size validation. -/
theorem c2_counterexample :
    (download worldOversized "u" 0 fsFive "/t/f.txt" 1).requests
      = [some "bytes=5-"] ∧
    (download worldOversized "u" 0 fsFive "/t/f.txt" 1).fs "/t/f.txt" = some 5 ∧
    (download worldOversized "u" 0 fsFive "/t/f.txt" 1).result
      = .error .sizeMismatch := by
  refine ⟨by decide, by decide, by decide⟩

/-- C2 amended: when the server supports ranges and the existing local
file size `S` strictly exceeds the probed content length, `Download`
does not treat the file as corrupt: the file is never deleted (its
size can only grow to `S` plus the copied bytes), the transfer request
carries `Range: bytes=S-`, and the attempt can never succeed. -/
theorem c2_oversized_resumes_from_S (a : Attempt) (fs : Fs) (target : String)
    (r0 : Resolved) (h : Header) (fn ex t1 : String) (S : Nat)
    (hres : resolveTarget target = some r0)
    (hp : a.probe = some h)
    (hinf : inferExtension h.contentType r0.entension r0.filename r0.targetDir target
      = (fn, ex, t1))
    (hrg : rangesOf h = true)
    (hfs : fs t1 = some S)
    (hSL : h.contentLength < (S : Int))
    (hreq : a.newReqOk = true) :
    (attemptOnce a fs target).request = some (some ("bytes=" ++ toString S ++ "-")) ∧
    (∃ n, S ≤ n ∧ (attemptOnce a fs target).fs t1 = some n) ∧
    (∀ r, (attemptOnce a fs target).result ≠ .ok r) := by
  have hne : ((S : Nat) : Int) ≠ h.contentLength := by omega
  rw [attemptOnce_ranges_file a fs target r0 h fn ex t1 S hres hp hinf hrg hfs hne]
  refine ⟨?_, ?_, ?_⟩
  · rw [transferPhase_request a true h.contentLength S fs fn r0.targetDir t1 hreq]
    simp [rangeHeaderOf]
  · rcases transferPhase_fs a true h.contentLength S fs fn r0.targetDir t1 with hc | hc
    · exact ⟨S, le_refl S, by rw [hc, hfs]⟩
    · exact ⟨(fs t1).getD 0 + a.copyWritten, by rw [hfs]; simp, hc⟩
  · intro r hok
    have hcl := (transferPhase_ok_size a true h.contentLength S fs fn
      r0.targetDir t1 r hok).2.2
    rw [hfs] at hcl
    simp only [Option.getD_some] at hcl
    omega

/-- Witness for C2's amended statement at the oversized fixture. -/
theorem c2_oversized_resumes_from_S_witness :
    (attemptOnce (worldOversized 0) fsFive "/t/f.txt").request
      = some (some "bytes=5-") ∧
    (attemptOnce (worldOversized 0) fsFive "/t/f.txt").result
      ≠ .ok ⟨"f", "/t", "/t/f.txt"⟩ := by
  have h := c2_oversized_resumes_from_S (worldOversized 0) fsFive "/t/f.txt"
    ⟨"f", ".txt", "/t"⟩ ⟨"", "bytes", "", 3⟩ "f" ".txt" "/t/f.txt" 5
    (by decide) rfl (by decide) rfl rfl (by decide) rfl
  exact ⟨h.1, h.2.2 ⟨"f", "/t", "/t/f.txt"⟩⟩

/-- C4: given a partial local file of size `S` with `0 < S < L` and
range support, the resumed transfer request carries exactly
`Range: bytes=S-`, and whenever the attempt succeeds the final file
size equals `L` (success requires passing the final size check). -/
theorem c4_resume_correctness (a : Attempt) (fs : Fs) (target : String)
    (r0 : Resolved) (h : Header) (fn ex t1 : String) (S L : Nat)
    (hres : resolveTarget target = some r0)
    (hp : a.probe = some h)
    (hinf : inferExtension h.contentType r0.entension r0.filename r0.targetDir target
      = (fn, ex, t1))
    (hrg : rangesOf h = true)
    (hfs : fs t1 = some S)
    (hL : h.contentLength = (L : Int))
    (hpos : 0 < S)
    (hSL : S < L)
    (hreq : a.newReqOk = true) :
    (attemptOnce a fs target).request = some (some ("bytes=" ++ toString S ++ "-")) ∧
    (∀ r, (attemptOnce a fs target).result = .ok r →
      r.path = t1 ∧ (attemptOnce a fs target).fs t1 = some L) := by
  have hne : ((S : Nat) : Int) ≠ h.contentLength := by omega
  rw [attemptOnce_ranges_file a fs target r0 h fn ex t1 S hres hp hinf hrg hfs hne]
  refine ⟨?_, ?_⟩
  · rw [transferPhase_request a true h.contentLength S fs fn r0.targetDir t1 hreq]
    simp [rangeHeaderOf]
  · intro r hok
    obtain ⟨hr, hfs2, hcl⟩ := transferPhase_ok_size a true h.contentLength S fs fn
      r0.targetDir t1 r hok
    rw [hfs] at hfs2 hcl
    simp only [Option.getD_some] at hfs2 hcl
    have hLn : S + a.copyWritten = L := by omega
    exact ⟨by rw [hr], by rw [hfs2, hLn]⟩

/-- Witness for C4 at the resume fixture: a 2-byte partial file, a
7-byte resource, a 5-byte resumed transfer. -/
theorem c4_resume_correctness_witness :
    (attemptOnce (worldResume 0) fsTwo "/t/f.txt").request
      = some (some "bytes=2-") ∧
    (attemptOnce (worldResume 0) fsTwo "/t/f.txt").fs "/t/f.txt" = some 7 := by
  have h := c4_resume_correctness (worldResume 0) fsTwo "/t/f.txt"
    ⟨"f", ".txt", "/t"⟩ ⟨"", "bytes", "", 7⟩ "f" ".txt" "/t/f.txt" 2 7
    (by decide) rfl (by decide) rfl rfl rfl (by decide) (by decide) rfl
  exact ⟨h.1, (h.2 ⟨"f", "/t", "/t/f.txt"⟩ (by decide)).2⟩

/-- C5: when the probe reports no range support and a local file
exists at the resolved target, the file is deleted before any new byte
is written — the post-attempt file is either absent or holds exactly
the newly copied bytes, never stale ones — and when the deletion fails
the attempt fails with a filesystem error that the retry loop consumes. -/
theorem c5_no_ranges_deletes_first (a : Attempt) (fs : Fs) (target : String)
    (r0 : Resolved) (h : Header) (fn ex t1 : String) (S : Nat)
    (hres : resolveTarget target = some r0)
    (hp : a.probe = some h)
    (hinf : inferExtension h.contentType r0.entension r0.filename r0.targetDir target
      = (fn, ex, t1))
    (hrg : rangesOf h = false)
    (hfs : fs t1 = some S) :
    (a.removeOk = false →
      (attemptOnce a fs target).result = .error .removeFail ∧
      retriableErr .removeFail = true ∧
      (attemptOnce a fs target).fs t1 = some S) ∧
    (a.removeOk = true →
      (attemptOnce a fs target).fs t1 = none ∨
      (attemptOnce a fs target).fs t1 = some a.copyWritten) := by
  constructor
  · intro hrm
    simp [attemptOnce, hres, hp, hinf, hrg, hfs, hrm, retriableErr]
  · intro hrm
    have ha : attemptOnce a fs target =
        (if (0 : Int) = h.contentLength
          then ⟨fsSet fs t1 none, t1, none, .ok ⟨fn, r0.targetDir, t1⟩⟩
          else transferPhase a false h.contentLength 0 (fsSet fs t1 none)
            fn r0.targetDir t1) := by
      simp [attemptOnce, hres, hp, hinf, hrg, hfs, hrm]
    rw [ha]
    by_cases hcl : (0 : Int) = h.contentLength
    · rw [if_pos hcl]; left; simp [fsSet]
    · rw [if_neg hcl]
      rcases transferPhase_fs a false h.contentLength 0 (fsSet fs t1 none)
        fn r0.targetDir t1 with hc | hc
      · left; rw [hc]; simp [fsSet]
      · right; rw [hc]; simp [fsSet]

/-- Witness for C5: with the no-range world and a 5-byte stale file,
after the attempt the file holds only the 4 newly transferred bytes
(or is absent), never the stale 5. -/
theorem c5_no_ranges_deletes_first_witness :
    (attemptOnce (worldNoRanges 0) fsFive "/t/f.txt").fs "/t/f.txt" = none ∨
    (attemptOnce (worldNoRanges 0) fsFive "/t/f.txt").fs "/t/f.txt" = some 4 :=
  (c5_no_ranges_deletes_first (worldNoRanges 0) fsFive "/t/f.txt"
    ⟨"f", ".txt", "/t"⟩ ⟨"", "", "", 9⟩ "f" ".txt" "/t/f.txt" 5
    (by decide) rfl (by decide) rfl rfl).2 rfl

/-- C6: when the server supports ranges and the existing local file
size equals the probed content length, `Download` performs no transfer
request and no write and immediately returns the success triple, for
any retry budget. -/
theorem c6_complete_skips_transfer (w : Nat → Attempt) (uri : String) (k : Nat)
    (fs : Fs) (target : String) (retry : Nat) (r0 : Resolved) (h : Header)
    (fn ex t1 : String) (S : Nat)
    (hres : resolveTarget target = some r0)
    (hp : (w k).probe = some h)
    (hinf : inferExtension h.contentType r0.entension r0.filename r0.targetDir target
      = (fn, ex, t1))
    (hrg : rangesOf h = true)
    (hfs : fs t1 = some S)
    (hS : ((S : Nat) : Int) = h.contentLength) :
    download w uri k fs target retry = ⟨fs, [], 1, .ok ⟨fn, r0.targetDir, t1⟩⟩ := by
  have ha : attemptOnce (w k) fs target
      = ⟨fs, t1, none, .ok ⟨fn, r0.targetDir, t1⟩⟩ := by
    simp [attemptOnce, hres, hp, hinf, hrg, hfs, hS]
  cases retry with
  | zero => simp [download, ha]
  | succ n => simp [download, ha]

/-- Witness for C6 at the already-complete fixture: 7-byte file,
content length 7, budget 5 — one attempt, no request, filesystem
untouched. -/
theorem c6_complete_skips_transfer_witness :
    download worldComplete "u" 0 fsSeven "/t/f.txt" 5
      = ⟨fsSeven, [], 1, .ok ⟨"f", "/t", "/t/f.txt"⟩⟩ :=
  c6_complete_skips_transfer worldComplete "u" 0 fsSeven "/t/f.txt" 5
    ⟨"f", ".txt", "/t"⟩ ⟨"", "bytes", "", 7⟩ "f" ".txt" "/t/f.txt" 7
    (by decide) rfl (by decide) rfl rfl rfl

/-- C3 counterexample: an attempt that ends in a size mismatch (10
declared bytes, 5 delivered) with retry budget 1 is NOT re-executed:
the call stops after a single attempt and surfaces the size-mismatch
error even though budget remains. -/
theorem c3_counterexample :
    (download worldShortBody "u" 0 fsNone "/t/f.txt" 1).attempts = 1 ∧
    (download worldShortBody "u" 0 fsNone "/t/f.txt" 1).result
      = .error .sizeMismatch := by
  refine ⟨by decide, by decide⟩

/-- C3 amended: request, HTTP-status, filesystem and copy errors are
retried — with budget left, the call re-executes the whole operation
and its outcome is that of the recursive call — but BOTH the
malformed-target error and the size-mismatch error are surfaced
immediately without consuming any retry, whatever the budget;
`retriableErr` characterises the split exactly. -/
theorem c3_retry_classification (w : Nat → Attempt) (uri : String) (k : Nat)
    (fs : Fs) (target : String) (e : DlError)
    (he : (attemptOnce (w k) fs target).result = .error e) :
    ((e = .invalidTarget ∨ e = .sizeMismatch) → ∀ retry,
      (download w uri k fs target retry).attempts = 1 ∧
      (download w uri k fs target retry).result = .error e) ∧
    (retriableErr e = true → ∀ retry,
      (download w uri k fs target (retry + 1)).result
        = (download w uri (k + 1) (attemptOnce (w k) fs target).fs
            (attemptOnce (w k) fs target).target retry).result ∧
      (download w uri k fs target (retry + 1)).attempts
        = (download w uri (k + 1) (attemptOnce (w k) fs target).fs
            (attemptOnce (w k) fs target).target retry).attempts + 1) ∧
    (retriableErr e = true ↔ ¬(e = .invalidTarget ∨ e = .sizeMismatch)) := by
  refine ⟨?_, ?_, ?_⟩
  · intro hcase retry
    have hr : retriableErr e = false := by
      rcases hcase with h1 | h1 <;> rw [h1] <;> rfl
    cases retry with
    | zero => simp [download, he]
    | succ n => simp [download, he, hr]
  · intro hr retry
    simp [download, he, hr]
  · cases e <;> simp [retriableErr]

/-- Witness for C3's amended statement: the size-mismatch fixture with
budget 2 still makes exactly one attempt. -/
theorem c3_retry_classification_witness :
    (download worldShortBody "u" 0 fsNone "/t/f.txt" 2).attempts = 1 ∧
    (download worldShortBody "u" 0 fsNone "/t/f.txt" 2).result
      = .error .sizeMismatch :=
  (c3_retry_classification worldShortBody "u" 0 fsNone "/t/f.txt" .sizeMismatch
    (by decide)).1 (Or.inr rfl) 2

/-- C7 counterexample: for target `"/tmp/downloads"` and probe content
type `image/png`, the resolved directory is `"/tmp"` and not
`"/tmp/downloads"`: the final segment `downloads` becomes the filename
stem, so the file resides at `/tmp/downloads.png` inside `/tmp`. -/
theorem c7_counterexample :
    (download worldPng "u" 0 fsNone "/tmp/downloads" 0).result
      = .ok ⟨"downloads.png", "/tmp", "/tmp/downloads.png"⟩ ∧
    ("/tmp" : String) ≠ "/tmp/downloads" := by
  refine ⟨by decide, by decide⟩

/-- C7 amended: with target `"/tmp/downloads"` (no extension) and probe
content type `image/png`, the resolved filename `downloads.png` does
end in `.png`, but the file resides in directory `/tmp` with full path
`/tmp/downloads.png`: the slice of the target before its last slash
becomes the directory and the last segment the filename stem. -/
theorem c7_extension_inference :
    resolveTarget "/tmp/downloads" = some ⟨"downloads", "", "/tmp"⟩ ∧
    inferExtension "image/png" "" "downloads" "/tmp" "/tmp/downloads"
      = ("downloads.png", ".png", "/tmp/downloads.png") ∧
    (".png".data.isSuffixOf "downloads.png".data = true) ∧
    (download worldPng "u" 0 fsNone "/tmp/downloads" 0).result
      = .ok ⟨"downloads.png", "/tmp", "/tmp/downloads.png"⟩ := by
  refine ⟨by decide, by decide, by decide, by decide⟩

/-- C8 counterexample: with retry budget 3 and a malformed target (no
extension and no path separator), exactly one attempt occurs and the
malformed-target error is surfaced immediately — it is not retried. -/
theorem c8_counterexample :
    (download worldAllOk "u" 0 fsNone "noslash" 3).attempts = 1 ∧
    (download worldAllOk "u" 0 fsNone "noslash" 3).result
      = .error .invalidTarget := by
  refine ⟨by decide, by decide⟩

/-- C8 amended: a malformed-target error is never retried: the target
check precedes the retry handling in the source, so whatever the
remaining budget the call returns the error after exactly one attempt,
with no transfer request issued and the filesystem untouched. -/
theorem c8_invalid_target_not_retried (w : Nat → Attempt) (uri : String) (k : Nat)
    (fs : Fs) (target : String) (retry : Nat)
    (hres : resolveTarget target = none) :
    download w uri k fs target retry = ⟨fs, [], 1, .error .invalidTarget⟩ := by
  have ha : attemptOnce (w k) fs target
      = ⟨fs, target, none, .error .invalidTarget⟩ := by
    simp [attemptOnce, hres]
  cases retry with
  | zero => simp [download, ha]
  | succ n => simp [download, ha, retriableErr]

/-- Witness for C8's amended statement at the malformed target. -/
theorem c8_invalid_target_not_retried_witness :
    download worldAllOk "u" 0 fsNone "noslash" 3
      = ⟨fsNone, [], 1, .error .invalidTarget⟩ :=
  c8_invalid_target_not_retried worldAllOk "u" 0 fsNone "noslash" 3 (by decide)

/-- A successful attempt requires a probe header with a non-negative
content length: both success sites compare a natural file size with
the probed length. -/
lemma attemptOnce_ok_nonneg (a : Attempt) (fs : Fs) (target : String) (r : DlResult)
    (hok : (attemptOnce a fs target).result = .ok r) :
    ∃ hd, a.probe = some hd ∧ 0 ≤ hd.contentLength := by
  rcases hres : resolveTarget target with _ | r0
  · rw [show attemptOnce a fs target = ⟨fs, target, none, .error .invalidTarget⟩ from by
      simp [attemptOnce, hres]] at hok
    simp at hok
  · rcases hp : a.probe with _ | hd
    · rw [show attemptOnce a fs target = ⟨fs, target, none, .error .probeFail⟩ from by
        simp [attemptOnce, hres, hp]] at hok
      simp at hok
    · refine ⟨hd, rfl, ?_⟩
      simp only [attemptOnce, hres, hp] at hok
      rcases hfs : fs ((inferExtension hd.contentType r0.entension r0.filename
          r0.targetDir target).2.2) with _ | s <;>
        rcases hrg : rangesOf hd with _ | _ <;>
        simp only [hfs, hrg] at hok <;>
        split_ifs at hok with hcl <;>
        first
          | exact transferPhase_ok_nonneg _ _ _ _ _ _ _ _ r hok
          | omega

/-- C9: when the probe declares no content length (`-1`), `Download`
can never succeed whatever happens on disk or on the wire: the
skip-as-complete check and the final validation both compare a
non-negative size with `-1`. -/
theorem c9_unknown_length_never_succeeds (w : Nat → Attempt) (uri : String)
    (hw : ∀ j hd, (w j).probe = some hd → hd.contentLength = -1) :
    ∀ retry k fs target r, (download w uri k fs target retry).result ≠ .ok r := by
  intro retry
  induction retry with
  | zero =>
    intro k fs target r hok
    simp only [download] at hok
    obtain ⟨hd, hp, hnn⟩ := attemptOnce_ok_nonneg (w k) fs target r hok
    have h1 := hw k hd hp
    omega
  | succ n ih =>
    intro k fs target r hok
    simp only [download] at hok
    rcases hres : (attemptOnce (w k) fs target).result with e | r2
    · simp only [hres] at hok
      by_cases hr : retriableErr e = true
      · rw [if_pos hr] at hok
        exact ih (k + 1) _ _ r (by simpa using hok)
      · rw [if_neg hr] at hok
        simp at hok
    · obtain ⟨hd, hp, hnn⟩ := attemptOnce_ok_nonneg (w k) fs target r2 hres
      have h1 := hw k hd hp
      omega

/-- Witness for C9: the unknown-length world never returns the success
triple even though the whole 9-byte body is written to disk. -/
theorem c9_unknown_length_never_succeeds_witness :
    (download worldNoLength "u" 0 fsNone "/t/f.txt" 1).result
      ≠ .ok ⟨"f", "/t", "/t/f.txt"⟩ :=
  c9_unknown_length_never_succeeds worldNoLength "u"
    (fun _ hd hj => by cases hj; rfl) 1 0 fsNone "/t/f.txt" ⟨"f", "/t", "/t/f.txt"⟩

/-- C10: when the probed content length is zero and either no file
exists at the resolved target or the existing file is deleted because
ranges are unsupported, `Download` returns the success triple after
one attempt with no transfer request, and no file exists at the
returned path afterwards — the skip decision comes from the size
comparison alone. -/
theorem c10_zero_length_immediate (w : Nat → Attempt) (uri : String) (k : Nat)
    (fs : Fs) (target : String) (retry : Nat) (r0 : Resolved) (hd : Header)
    (fn ex t1 : String)
    (hres : resolveTarget target = some r0)
    (hp : (w k).probe = some hd)
    (hinf : inferExtension hd.contentType r0.entension r0.filename r0.targetDir target
      = (fn, ex, t1))
    (hcl : hd.contentLength = 0)
    (hcase : fs t1 = none ∨ (rangesOf hd = false ∧ (w k).removeOk = true)) :
    (download w uri k fs target retry).result = .ok ⟨fn, r0.targetDir, t1⟩ ∧
    (download w uri k fs target retry).requests = [] ∧
    (download w uri k fs target retry).attempts = 1 ∧
    (download w uri k fs target retry).fs t1 = none := by
  have ha : (attemptOnce (w k) fs target).result = .ok ⟨fn, r0.targetDir, t1⟩ ∧
      (attemptOnce (w k) fs target).request = none ∧
      (attemptOnce (w k) fs target).fs t1 = none := by
    rcases hcase with hnone | ⟨hrg, hrm⟩
    · simp [attemptOnce, hres, hp, hinf, hnone, hcl]
    · rcases hfs : fs t1 with _ | s
      · simp [attemptOnce, hres, hp, hinf, hfs, hcl]
      · simp [attemptOnce, hres, hp, hinf, hfs, hrg, hrm, hcl, fsSet]
  rw [download_of_ok w uri k fs target retry _ ha.1]
  exact ⟨rfl, by simp [ha.2.1], rfl, ha.2.2⟩

/-- Witness for C10: zero content length, empty filesystem — immediate
success, no request, and no file at the returned path. -/
theorem c10_zero_length_immediate_witness :
    (download worldZeroLength "u" 0 fsNone "/t/f.txt" 2).result
      = .ok ⟨"f", "/t", "/t/f.txt"⟩ ∧
    (download worldZeroLength "u" 0 fsNone "/t/f.txt" 2).requests = [] ∧
    (download worldZeroLength "u" 0 fsNone "/t/f.txt" 2).attempts = 1 ∧
    (download worldZeroLength "u" 0 fsNone "/t/f.txt" 2).fs "/t/f.txt" = none :=
  c10_zero_length_immediate worldZeroLength "u" 0 fsNone "/t/f.txt" 2
    ⟨"f", ".txt", "/t"⟩ ⟨"", "bytes", "", 0⟩ "f" ".txt" "/t/f.txt"
    (by decide) rfl (by decide) rfl (Or.inl rfl)

end QQZone
